import Mathlib

/-!
Verification development for the WordPress MCP gateway.

The definitions below are a shallow embedding of the two infrastructural
layers of the repository: the REST request/response abstraction in
`src/wordpress/client.ts` (error normalization, pagination-header parsing,
query-string encoding, delete targets, list defaults) and the HTTP-server
layer in `src/index.ts` (API-key gate, SSE session registry) together with
the tool-handler logic that holds independent control flow (bulk comment
moderation, the empty-update check shared by the update handlers).

JavaScript-specific behaviour (truthiness of strings, `||` defaulting,
`parseInt` returning `NaN`, `URLSearchParams` percent-encoding) is modelled
explicitly so the theorems are about what the code does, not about what an
idealized encoder or parser would do.
-/

namespace WPMCP

/-- JavaScript truthiness of a possibly-absent string value: `undefined` and
the empty string are falsy, every other string is truthy. -/
def jsTruthy : Option String → Bool
  | none => false
  | some s => s ≠ ""

/-- JavaScript `a || b` on a possibly-absent string `a` with string default
`b`: yields `b` exactly when `a` is absent or empty. -/
def jsOrDefault (a : Option String) (b : String) : String :=
  if jsTruthy a then a.getD b else b

/- ===================== Error normalization (client.ts) ===================== -/

/-- Shape of the fields the error path reads off a parsed JSON error body:
`errorJson.message` and `errorJson.code`, each possibly absent. -/
structure ErrJson where
  message : Option String
  code : Option String
deriving DecidableEq, Repr

/-- Message extraction of `WordPressClient.request` /
`WordPressClient.requestWithHeaders` (client.ts lines 65-74 and 97-106):
`try { const errorJson = JSON.parse(errorBody); errorMessage =
errorJson.message || errorJson.code || errorBody } catch { errorMessage =
errorBody }`.  The `parsed` argument is the outcome of `JSON.parse` on
`body`: `none` when parsing (or the field access) throws. -/
def extractErrorMessage (parsed : Option ErrJson) (body : String) : String :=
  match parsed with
  | none => body
  | some j => jsOrDefault j.message (jsOrDefault j.code body)

/-- Error text thrown by the JSON request paths (client.ts lines 74 and 106):
`WordPress API error (${response.status}): ${errorMessage}`. -/
def requestErrorText (status : Nat) (parsed : Option ErrJson) (body : String) : String :=
  "WordPress API error (" ++ toString status ++ "): " ++ extractErrorMessage parsed body

/-- Error text thrown by the multipart media-upload path
(`WordPressClient.uploadMedia`, client.ts lines 277-280): the raw body text is
interpolated directly, with no JSON parsing step. -/
def uploadMediaErrorText (status : Nat) (body : String) : String :=
  "WordPress API error (" ++ toString status ++ "): " ++ body

/- ===================== Pagination headers (client.ts) ===================== -/

/-- Characters the ECMAScript `parseInt` skips as leading whitespace
(the WhiteSpace and LineTerminator productions, restricted to ASCII). -/
def isJsWhitespace (c : Char) : Bool :=
  c = ' ' || c = '\t' || c = '\n' || c = '\r'

/-- Value of a list of leading decimal digits. -/
def digitsValue (cs : List Char) : Nat :=
  cs.foldl (fun a c => a * 10 + (c.toNat - 48)) 0

/-- Longest decimal-digit prefix, interpreted as a number; `none` when the
prefix is empty (ECMAScript `parseInt` yields `NaN` there). -/
def digitsPrefixValue (cs : List Char) : Option Nat :=
  let ds := cs.takeWhile Char.isDigit
  if ds.isEmpty then none else some (digitsValue ds)

/-- ECMAScript `parseInt(s, 10)`: skip leading whitespace, read an optional
sign, then the longest decimal-digit prefix; the result is `NaN` (modelled
`none`) when that prefix is empty. -/
def parseIntTen (s : String) : Option Int :=
  match s.toList.dropWhile isJsWhitespace with
  | [] => none
  | c :: rest =>
    if c = '-' then (digitsPrefixValue rest).map (fun n => -(Int.ofNat n))
    else if c = '+' then (digitsPrefixValue rest).map Int.ofNat
    else (digitsPrefixValue (c :: rest)).map Int.ofNat

/-- Resolution of one pagination header by `requestWithHeaders` (client.ts
lines 110-111): `parseInt(response.headers.get(name) || '0', 10)`.  The
argument is the header value, `none` when the header is missing (`get`
returns `null`).  `none` in the result models `NaN`. -/
def resolveHeaderTotal (header : Option String) : Option Int :=
  parseIntTen (jsOrDefault header "0")

/-- Decidable test used to state the corrected C2: after leading whitespace
and an optional sign, the first character (if any) is not a decimal digit, so
`parseInt` finds no digits. -/
def noLeadingInt (s : String) : Bool :=
  match s.toList.dropWhile isJsWhitespace with
  | [] => true
  | c :: rest =>
    if c = '-' || c = '+' then
      match rest with
      | [] => true
      | d :: _ => !d.isDigit
    else !c.isDigit

/- ===================== Query encoding (client.ts) ===================== -/

/-- Scalar parameter values as they occur inside arrays; `String(x)` / the
elementwise stringification of `Array.prototype.join`. -/
inductive ParamScalar where
  | sstr (s : String)
  | sint (n : Int)
deriving DecidableEq, Repr

/-- Stringification of a scalar, as JavaScript does it. -/
def scalarToString : ParamScalar → String
  | .sstr s => s
  | .sint n => toString n

/-- Values a parameter-object entry can hold in `buildQueryString`: a scalar,
a boolean, an array, or `undefined`/`null` (both skipped identically). -/
inductive ParamValue where
  | vstr (s : String)
  | vint (n : Int)
  | vbool (b : Bool)
  | varr (elems : List ParamScalar)
  | vnull
deriving DecidableEq, Repr

/-- Hexadecimal digit character (uppercase), for percent-escapes. -/
def hexDigit (n : Nat) : Char :=
  if n < 10 then Char.ofNat (48 + n) else Char.ofNat (55 + n)

/-- Percent-escape of one byte, e.g. 44 becomes "%2C". -/
def percentByte (b : Nat) : String :=
  String.mk ['%', hexDigit (b / 16), hexDigit (b % 16)]

/-- UTF-8 bytes of one code point. -/
def utf8Bytes (c : Char) : List Nat :=
  let n := c.toNat
  if n < 0x80 then [n]
  else if n < 0x800 then [0xC0 + n / 64, 0x80 + n % 64]
  else if n < 0x10000 then [0xE0 + n / 4096, 0x80 + (n / 64) % 64, 0x80 + n % 64]
  else [0xF0 + n / 262144, 0x80 + (n / 4096) % 64, 0x80 + (n / 64) % 64, 0x80 + n % 64]

/-- Characters the application/x-www-form-urlencoded serializer leaves
unescaped: ASCII alphanumerics and `*`, `-`, `.`, `_`. -/
def formSafe (c : Char) : Bool :=
  c.isAlphanum || c = '*' || c = '-' || c = '.' || c = '_'

/-- Encoding of one character by the application/x-www-form-urlencoded
serializer: safe characters kept, space becomes `+`, everything else
percent-escaped bytewise. -/
def encodeChar (c : Char) : String :=
  if formSafe c then String.mk [c]
  else if c = ' ' then "+"
  else String.join ((utf8Bytes c).map percentByte)

/-- Characterwise encoding of a character list. -/
def encodeChars : List Char → String
  | [] => ""
  | c :: rest => encodeChar c ++ encodeChars rest

/-- Encoding of one name or value by `URLSearchParams.toString()`
(the application/x-www-form-urlencoded serializer). -/
def encodeFormComponent (s : String) : String :=
  encodeChars s.toList

/-- Removal of every pair with the given name (`URLSearchParams.delete`). -/
def searchParamsDelete (l : List (String × String)) (k : String) : List (String × String) :=
  l.filter (fun p => p.1 ≠ k)

/-- `URLSearchParams.set(k, v)`: replace the first pair named `k` in place
and drop the other pairs named `k`; append when `k` is absent. -/
def searchParamsSet : List (String × String) → String → String → List (String × String)
  | [], k, v => [(k, v)]
  | p :: rest, k, v =>
    if p.1 = k then (k, v) :: searchParamsDelete rest k
    else p :: searchParamsSet rest k v

/-- Serialization of the accumulated pairs (`URLSearchParams.toString()`). -/
def serializeSearchParams (l : List (String × String)) : String :=
  String.intercalate "&" (l.map (fun p => encodeFormComponent p.1 ++ "=" ++ encodeFormComponent p.2))

/-- Body of the accumulation loop of `WordPressClient.buildQueryString`
(client.ts lines 118-129): skip `undefined`/`null` entries, join arrays with
commas, render booleans as `true`/`false`, stringify other scalars, and
store with `URLSearchParams.set`. -/
def searchParamsStep (acc : List (String × String)) (p : String × ParamValue) :
    List (String × String) :=
  match p.2 with
  | .vnull => acc
  | .varr es => searchParamsSet acc p.1 (String.intercalate "," (es.map scalarToString))
  | .vbool b => searchParamsSet acc p.1 (if b then "true" else "false")
  | .vstr s => searchParamsSet acc p.1 s
  | .vint n => searchParamsSet acc p.1 (toString n)

/-- Accumulated `URLSearchParams` pairs once the loop of
`WordPressClient.buildQueryString` has processed every entry. -/
def buildSearchParams (params : List (String × ParamValue)) : List (String × String) :=
  params.foldl searchParamsStep []

/-- Embedding of `WordPressClient.buildQueryString` (client.ts lines
116-132): run the accumulation loop over the entries, then serialize and
prefix `?` when non-empty. -/
def buildQueryString (params : List (String × ParamValue)) : String :=
  let queryString := serializeSearchParams (buildSearchParams params)
  if queryString = "" then "" else "?" ++ queryString

/- ===================== Delete targets (client.ts) ===================== -/

/-- Request target of `WordPressClient.deletePost` (client.ts lines 164-169):
`force ? '?force=true' : ''` appended to `/posts/${postId}`. -/
def deletePostTarget (postId : Int) (force : Bool) : String :=
  "/posts/" ++ toString postId ++ (if force then "?force=true" else "")

/-- Default of the `force` parameter of `deletePost` (client.ts line 164). -/
def deletePostForceDefault : Bool := false

/-- Request target of `WordPressClient.deletePage` (client.ts lines 201-206). -/
def deletePageTarget (pageId : Int) (force : Bool) : String :=
  "/pages/" ++ toString pageId ++ (if force then "?force=true" else "")

/-- Default of the `force` parameter of `deletePage` (client.ts line 201). -/
def deletePageForceDefault : Bool := false

/-- Request target of `WordPressClient.deleteComment` (client.ts lines
233-238). -/
def deleteCommentTarget (commentId : Int) (force : Bool) : String :=
  "/comments/" ++ toString commentId ++ (if force then "?force=true" else "")

/-- Default of the `force` parameter of `deleteComment` (client.ts line 233). -/
def deleteCommentForceDefault : Bool := false

/-- Request target of `WordPressClient.deleteMedia` (client.ts lines
295-300): `/media/${mediaId}?force=${force}` — the flag is always
interpolated, rendered `true`/`false`. -/
def deleteMediaTarget (mediaId : Int) (force : Bool) : String :=
  "/media/" ++ toString mediaId ++ "?force=" ++ (if force then "true" else "false")

/-- Default of the `force` parameter of `deleteMedia` (client.ts line 295). -/
def deleteMediaForceDefault : Bool := true

/- ===================== List defaults (client.ts) ===================== -/

/-- JavaScript object-spread `\x7b ...base, ...override \x7d` restricted to the
shape used by the list methods, `\x7b per_page: d, ...params \x7d`: keys of
`base` keep their position, with the value overridden when `params` also
holds the key; keys only in `params` follow in their own order. -/
def spreadInto (base params : List (String × ParamValue)) : List (String × ParamValue) :=
  (base.map (fun p =>
    match params.find? (fun q => q.1 = p.1) with
    | some q => (p.1, q.2)
    | none => p))
  ++ params.filter (fun q => !(base.any (fun p => p.1 = q.1)))

/-- Query string built by `WordPressClient.listPosts` (client.ts line 137):
`buildQueryString(\x7b per_page: 20, ...params \x7d)`. -/
def listPostsQuery (params : List (String × ParamValue)) : String :=
  buildQueryString (spreadInto [("per_page", .vint 20)] params)

/-- Query string built by `WordPressClient.listPages` (client.ts line 174). -/
def listPagesQuery (params : List (String × ParamValue)) : String :=
  buildQueryString (spreadInto [("per_page", .vint 20)] params)

/-- Query string built by `WordPressClient.listComments` (client.ts line
211). -/
def listCommentsQuery (params : List (String × ParamValue)) : String :=
  buildQueryString (spreadInto [("per_page", .vint 20)] params)

/-- Query string built by `WordPressClient.listMedia` (client.ts line 243). -/
def listMediaQuery (params : List (String × ParamValue)) : String :=
  buildQueryString (spreadInto [("per_page", .vint 20)] params)

/-- Query string built by `WordPressClient.listCategories` (client.ts line
305): the injected default is 100. -/
def listCategoriesQuery (params : List (String × ParamValue)) : String :=
  buildQueryString (spreadInto [("per_page", .vint 100)] params)

/-- Query string built by `WordPressClient.listTags` (client.ts line 336). -/
def listTagsQuery (params : List (String × ParamValue)) : String :=
  buildQueryString (spreadInto [("per_page", .vint 100)] params)

/-- Request target of `WordPressClient.listUsers` (client.ts lines 366-368):
the bare path, no query string and hence no `per_page` parameter. -/
def listUsersTarget : String := "/users"

/- ===================== Update handlers (tools) ===================== -/

/-- Outcome of one run of an update tool handler: the JSON bodies of the
requests it issued to the REST client, and the validation-error reply text
when it refused to issue any. -/
structure UpdateHandlerRun where
  issuedBodies : List (List (String × String))
  errorText : Option String
deriving DecidableEq, Repr

/-- Shared logic of the `update_post`, `update_page`, `update_media` and
`update_site_settings` handlers (comments.ts update-post lines 395-413,
media.ts lines 157-175, settings update lines 406-423): drop the entries
whose value is `undefined`; when none remain, reply with the validation
error text and issue no request; otherwise issue exactly one request whose
body is the remaining entries. -/
def runUpdateHandler (errText : String) (updateData : List (String × Option String)) :
    UpdateHandlerRun :=
  let cleanData := updateData.filter (fun p => p.2.isSome)
  if cleanData.length = 0 then
    { issuedBodies := [], errorText := some errText }
  else
    { issuedBodies := [cleanData.map (fun p => (p.1, p.2.getD ""))], errorText := none }

/- ===================== Bulk moderation (comments.ts) ===================== -/

/-- One entry of the aggregate result of `bulk_moderate_comments`:
`\x7b id, success \x7d` on success, `\x7b id, success: false, error \x7d` on
failure. -/
structure ModerationResult where
  id : Int
  success : Bool
  error : Option String
deriving DecidableEq, Repr

/-- Loop of the `bulk_moderate_comments` handler (comments.ts lines
186-212): for each id in order, try the individual `updateComment` call
(abstracted by the oracle `upd`, whose error value is the caught message)
and push a per-item record; a failure is caught and recorded, never
propagated. -/
def bulkModerateComments (upd : Int → Except String Unit) :
    List Int → List ModerationResult
  | [] => []
  | commentId :: rest =>
    (match upd commentId with
     | .ok _ => { id := commentId, success := true, error := none }
     | .error e => { id := commentId, success := false, error := some e })
    :: bulkModerateComments upd rest

/- ===================== Access gate (index.ts) ===================== -/

/-- Request headers the gate inspects. -/
structure GateHeaders where
  xApiKey : Option String
  authorization : Option String
deriving DecidableEq, Repr

/-- Outcome of the gate middleware. -/
inductive GateOutcome where
  | pass
  | unauthorized
  | forbidden
deriving DecidableEq, Repr

/-- Embedding of `requireApiKey` (index.ts lines 735-774), translated
clause by clause: when `API_KEY` is unset (or empty, which is falsy) every
request passes; otherwise `providedKey` is taken from `x-api-key` if truthy,
else from a `Bearer `-prefixed `authorization` with the prefix sliced off,
else from a truthy bare `authorization`; a falsy `providedKey` yields 401,
an inequal one 403, an equal one passes. -/
def requireApiKey (apiKey : Option String) (h : GateHeaders) : GateOutcome :=
  if !jsTruthy apiKey then .pass
  else
    let providedKey : Option String :=
      if jsTruthy h.xApiKey then h.xApiKey
      else if (h.authorization.getD "").startsWith "Bearer " then
        some ((h.authorization.getD "").drop 7)
      else if jsTruthy h.authorization then h.authorization
      else none
    if !jsTruthy providedKey then .unauthorized
    else if providedKey ≠ apiKey then .forbidden
    else .pass

/-- Candidate-key extraction as the claim describes it: check, in order, the
dedicated API-key header, a Bearer-prefixed Authorization header with the
prefix stripped, then a bare Authorization header; a header with an empty
value (and an empty stripped Bearer token) offers no candidate. -/
def extractCandidate (h : GateHeaders) : Option String :=
  if jsTruthy h.xApiKey then h.xApiKey
  else if (h.authorization.getD "").startsWith "Bearer " then
    let stripped := (h.authorization.getD "").drop 7
    if stripped = "" then none else some stripped
  else if jsTruthy h.authorization then h.authorization
  else none

/-- Gate behaviour as the claim describes it, built from `extractCandidate`:
no secret passes everything; no candidate is unauthorized; a wrong candidate
is forbidden; a matching one passes. -/
def accessGateSpec (secret : Option String) (h : GateHeaders) : GateOutcome :=
  match secret with
  | none => .pass
  | some s =>
    if s = "" then .pass
    else
      match extractCandidate h with
      | none => .unauthorized
      | some k => if k = s then .pass else .forbidden

/- ===================== Session registry (index.ts) ===================== -/

/-- State of the `sseTransports` map: session id to transport handle, in
insertion order, at most one entry per id (JavaScript `Map` semantics are
modelled by the operations below).  Transport handles are abstracted as
naturals. -/
abbrev RegistryState := List (String × Nat)

/-- JavaScript `Map.get`: value of the first (and only) entry with the key. -/
def mapGet (m : RegistryState) (k : String) : Option Nat :=
  (m.find? (fun p => p.1 = k)).map (fun p => p.2)

/-- JavaScript `Map.set`: overwrite the value in place when the key exists,
else append.  This is what `app.get('/sse')` does at index.ts line 851:
`sseTransports.set(sessionId, transport)` — with no collision check. -/
def mapSet : RegistryState → String → Nat → RegistryState
  | [], k, v => [(k, v)]
  | p :: rest, k, v => if p.1 = k then (k, v) :: rest else p :: mapSet rest k v

/-- JavaScript `Map.delete`: remove the entry with the key, a no-op when it
is absent. -/
def mapDelete (m : RegistryState) (k : String) : RegistryState :=
  m.filter (fun p => p.1 ≠ k)

/-- Registration step of the `/sse` handler (index.ts lines 845-853): store
the transport under the session id the transport minted. -/
def sseOpen (m : RegistryState) (sessionId : String) (transport : Nat) : RegistryState :=
  mapSet m sessionId transport

/-- Disconnect handler registered by `/sse` (index.ts lines 856-859):
`sseTransports.delete(sessionId)` then `transport.close()`; on the map state
this is the delete. -/
def sseClose (m : RegistryState) (sessionId : String) : RegistryState :=
  mapDelete m sessionId

/-- Outcome of one `/messages` POST. -/
inductive RouteOutcome where
  | missingSessionId
  | notFound
  | handled (transport : Nat)
deriving DecidableEq, Repr

/-- Routing step of the `/messages` handler (index.ts lines 872-889): a
missing `sessionId` query parameter is a 400, an id absent from the map is a
404 `Session not found`, otherwise the message is handed to the stored
transport. -/
def routeMessage (m : RegistryState) (sessionId : Option String) : RouteOutcome :=
  match sessionId with
  | none => .missingSessionId
  | some sid =>
    match mapGet m sid with
    | none => .notFound
    | some t => .handled t

/- ===================== Helper lemmas ===================== -/

theorem mapGet_mapSet_self (m : RegistryState) (k : String) (v : Nat) :
    mapGet (mapSet m k v) k = some v := by
  induction m with
  | nil => simp [mapSet, mapGet, List.find?]
  | cons p rest ih =>
    by_cases hk : p.1 = k
    · simp [mapSet, hk, mapGet, List.find?]
    · simp only [mapSet, if_neg hk]
      simpa [mapGet, List.find?_cons, hk] using ih

theorem mapGet_mapSet_ne (m : RegistryState) (k k2 : String) (v : Nat) (h : k ≠ k2) :
    mapGet (mapSet m k v) k2 = mapGet m k2 := by
  induction m with
  | nil => simp [mapSet, mapGet, List.find?, h]
  | cons p rest ih =>
    by_cases hk : p.1 = k
    · simp [mapSet, hk, mapGet, List.find?_cons, h, hk ▸ h]
    · simp only [mapSet, if_neg hk]
      by_cases hk2 : p.1 = k2
      · simp [mapGet, List.find?_cons, hk2]
      · simpa [mapGet, List.find?_cons, hk2] using ih

theorem mapSet_mapSet_self (m : RegistryState) (k : String) (v1 v2 : Nat) :
    mapSet (mapSet m k v1) k v2 = mapSet m k v2 := by
  induction m with
  | nil => simp [mapSet]
  | cons p rest ih =>
    by_cases hk : p.1 = k
    · simp [mapSet, hk]
    · simp [mapSet, hk, ih]

theorem mapGet_mapDelete_self (m : RegistryState) (k : String) :
    mapGet (mapDelete m k) k = none := by
  rw [mapGet, Option.map_eq_none', List.find?_eq_none]
  intro p hp
  rcases List.mem_filter.mp hp with ⟨-, hne⟩
  simpa using hne

theorem mapDelete_idem (m : RegistryState) (k : String) :
    mapDelete (mapDelete m k) k = mapDelete m k := by
  rw [mapDelete, List.filter_eq_self]
  intro p hp
  exact (List.mem_filter.mp hp).2

/- ===================== C4 ===================== -/

/-- C4 counterexample.  The claim says the registry never silently replaces
an existing transport when a new transport arrives with a colliding session
id, and that opening two transports always yields two distinct registered
ids.  On the code, `sseOpen` is `Map.set` with no collision check: opening
transport 1 under id "s" and then transport 2 under the same id leaves a
registry holding only transport 2 under the single id "s". -/
theorem sse_open_collision_replace_cex :
    sseOpen (sseOpen [] "s" 1) "s" 2 = [("s", 2)] ∧
    (sseOpen (sseOpen [] "s" 1) "s" 2).length = 1 ∧
    mapGet (sseOpen (sseOpen [] "s" 1) "s" 2) "s" = some 2 := by
  decide

/-- C4 amended.  Opening a transport registers it under its session id with
`Map.set` overwrite semantics: a later open under the same id silently
replaces the earlier transport, and two opens yield two distinct registered
entries exactly because the transport-minted ids differ, not because of any
registry check. -/
theorem sse_open_overwrite_amended (m : RegistryState) (id1 id2 : String) (t1 t2 : Nat) :
    mapGet (sseOpen m id1 t1) id1 = some t1 ∧
    sseOpen (sseOpen m id1 t1) id1 t2 = sseOpen m id1 t2 ∧
    (id1 ≠ id2 →
      mapGet (sseOpen (sseOpen m id1 t1) id2 t2) id1 = some t1 ∧
      mapGet (sseOpen (sseOpen m id1 t1) id2 t2) id2 = some t2) := by
  refine ⟨mapGet_mapSet_self m id1 t1, mapSet_mapSet_self m id1 t1 t2, fun hne => ⟨?_, ?_⟩⟩
  · rw [sseOpen, sseOpen, mapGet_mapSet_ne _ _ _ _ (Ne.symm hne)]
    exact mapGet_mapSet_self m id1 t1
  · exact mapGet_mapSet_self _ id2 t2

/-- C4 amended, witnessed at a concrete registry: two opens with distinct
minted ids both stay registered; a colliding re-open replaces. -/
theorem sse_open_overwrite_amended_witness :
    mapGet (sseOpen (sseOpen [] "a" 1) "b" 2) "a" = some 1 ∧
    mapGet (sseOpen (sseOpen [] "a" 1) "b" 2) "b" = some 2 ∧
    sseOpen (sseOpen [] "a" 1) "a" 2 = sseOpen [] "a" 2 := by
  have h := sse_open_overwrite_amended [] "a" "b" 1 2
  exact ⟨(h.2.2 (by decide)).1, (h.2.2 (by decide)).2, h.2.1⟩

/- ===================== C5 ===================== -/

/-- C5 confirmed.  Routing a message to a session id yields the 404-class
`Session not found` outcome exactly when the id has no entry in the registry
— so both for an id that was never opened and for one removed by the
disconnect handler — and running the disconnect handler on an id that is
already gone is a no-op, so a second close leaves the state of the first. -/
theorem session_route_close_contract (m : RegistryState) (sid : String) :
    (routeMessage m (some sid) = .notFound ↔ mapGet m sid = none) ∧
    routeMessage (sseClose m sid) (some sid) = .notFound ∧
    sseClose (sseClose m sid) sid = sseClose m sid := by
  refine ⟨?_, ?_, mapDelete_idem m sid⟩
  · rw [routeMessage]
    cases h : mapGet m sid <;> simp [h]
  · rw [routeMessage, sseClose, mapGet_mapDelete_self]

/- ===================== C6 ===================== -/

/-- C6 confirmed.  The gate middleware behaves exactly as the claim
describes: with no secret configured every request passes; with a secret,
the candidate key is extracted by checking in order the X-API-Key header,
a Bearer-prefixed Authorization header with the prefix stripped, then a
bare Authorization header (a header carrying an empty value, or an empty
stripped Bearer token, offers no candidate per the falsiness checks of the
source); no candidate is a 401, a candidate differing from the secret is a
403, a matching one passes. -/
theorem access_gate_refines_spec (secret : Option String) (h : GateHeaders) :
    requireApiKey secret h = accessGateSpec secret h := by
  cases secret with
  | none => simp [requireApiKey, accessGateSpec, jsTruthy]
  | some s =>
    by_cases hs : s = ""
    · simp [requireApiKey, accessGateSpec, jsTruthy, hs]
    · rw [requireApiKey, accessGateSpec, extractCandidate]
      simp only [jsTruthy, hs, decide_not]
      cases hx : h.xApiKey with
      | some x =>
        by_cases hxe : x = "" <;>
          simp [hx, hxe, jsTruthy, hs] <;>
          by_cases hb : (h.authorization.getD "").startsWith "Bearer " <;>
            simp [hb, jsTruthy] <;>
            cases ha : h.authorization <;> simp [ha] at hb ⊢ <;>
              split <;> simp_all <;> split <;> simp_all
      | none =>
        simp [hx, jsTruthy, hs]
        by_cases hb : (h.authorization.getD "").startsWith "Bearer " <;>
          simp [hb, jsTruthy] <;>
          cases ha : h.authorization <;> simp [ha] at hb ⊢ <;>
            split <;> simp_all <;> split <;> simp_all

/- ===================== C7 ===================== -/

/-- C7 confirmed.  The bulk moderation loop tries every id independently:
the aggregate has exactly one entry per input id, in input order, and the
entry at each position records that id together with the success flag and
caught error message of that id's own individual update — a failing item
never aborts the items after it. -/
theorem bulk_moderation_per_item (upd : Int → Except String Unit) (ids : List Int) :
    (bulkModerateComments upd ids).length = ids.length ∧
    ∀ (k : Nat) (cid : Int), ids[k]? = some cid →
      (bulkModerateComments upd ids)[k]? = some
        (match upd cid with
         | .ok _ => { id := cid, success := true, error := none }
         | .error e => { id := cid, success := false, error := some e }) := by
  induction ids with
  | nil => exact ⟨rfl, fun k cid h => by simp at h⟩
  | cons c rest ih =>
    refine ⟨by simpa [bulkModerateComments] using ih.1, fun k cid h => ?_⟩
    cases k with
    | zero =>
      simp only [List.getElem?_cons_zero, Option.some.injEq] at h
      subst h
      simp [bulkModerateComments]
    | succ n =>
      simp only [List.getElem?_cons_succ] at h
      simpa [bulkModerateComments] using ih.2 n cid h

/-- C7 witnessed on three ids with the middle update failing: three entries,
the middle one flagged failed with the caught message. -/
theorem bulk_moderation_per_item_witness :
    (bulkModerateComments (fun i => if i = 20 then Except.error "boom" else Except.ok ())
        [10, 20, 30]).length = 3 ∧
    (bulkModerateComments (fun i => if i = 20 then Except.error "boom" else Except.ok ())
        [10, 20, 30])[1]? = some { id := 20, success := false, error := some "boom" } := by
  have h := bulk_moderation_per_item
    (fun i => if i = 20 then Except.error "boom" else Except.ok ()) [10, 20, 30]
  exact ⟨h.1, (h.2 1 20 (by decide)).trans (by decide)⟩

/- ===================== C8 ===================== -/

/-- C8 confirmed.  An update handler runs the shared empty-update check:
exactly when every supplied field is `undefined`, it replies with the
validation-error text and issues no request at all (so the remote state is
untouched); otherwise it issues exactly one request carrying the defined
fields. -/
theorem update_handler_empty_check (errText : String)
    (updateData : List (String × Option String)) :
    ((∀ p ∈ updateData, p.2 = none) ↔
      runUpdateHandler errText updateData = { issuedBodies := [], errorText := some errText }) ∧
    (¬ (∀ p ∈ updateData, p.2 = none) →
      runUpdateHandler errText updateData =
        { issuedBodies :=
            [(updateData.filter (fun p => p.2.isSome)).map (fun p => (p.1, p.2.getD ""))],
          errorText := none }) := by
  have hfilter : (updateData.filter (fun p => p.2.isSome) = []) ↔ ∀ p ∈ updateData, p.2 = none := by
    rw [List.filter_eq_nil_iff]
    exact ⟨fun h p hp => by simpa [Option.isSome_iff_ne_none] using h p hp,
           fun h p hp => by simp [h p hp]⟩
  constructor
  · constructor
    · intro h
      rw [runUpdateHandler]
      simp [List.length_eq_zero, hfilter.mpr h]
    · intro h
      by_contra hall
      rw [runUpdateHandler] at h
      have hne : ¬ updateData.filter (fun p => p.2.isSome) = [] := fun he => hall (hfilter.mp he)
      simp [List.length_eq_zero, hne] at h
  · intro h
    have hne : ¬ updateData.filter (fun p => p.2.isSome) = [] := fun he => h (hfilter.mp he)
    rw [runUpdateHandler]
    simp [List.length_eq_zero, hne]

/-- C8 witnessed: a run with only undefined fields issues nothing and
replies with the error text; a run with one defined field issues exactly
that body. -/
theorem update_handler_empty_check_witness :
    runUpdateHandler "Error: No fields to update were provided." [("title", none)] =
      { issuedBodies := [], errorText := some "Error: No fields to update were provided." } ∧
    runUpdateHandler "Error: No fields to update were provided." [("title", some "T")] =
      { issuedBodies := [[("title", "T")]], errorText := none } := by
  constructor
  · exact (update_handler_empty_check "Error: No fields to update were provided."
      [("title", none)]).1.mp (by decide)
  · exact ((update_handler_empty_check "Error: No fields to update were provided."
      [("title", some "T")]).2 (by decide)).trans (by decide)

/- ===================== C9 ===================== -/

/-- C9 confirmed.  The force flag is asymmetric by resource kind: deleting a
post, page or comment defaults `force` to `false` and appends `?force=true`
only when the flag is true (the target is the bare resource path otherwise),
while deleting a media item defaults `force` to `true` and always carries a
`force` query parameter rendered from the flag. -/
theorem delete_force_asymmetry (postId pageId commentId mediaId : Int) (force : Bool) :
    deletePostForceDefault = false ∧ deletePageForceDefault = false ∧
    deleteCommentForceDefault = false ∧ deleteMediaForceDefault = true ∧
    deletePostTarget postId false = "/posts/" ++ toString postId ∧
    deletePostTarget postId true = "/posts/" ++ toString postId ++ "?force=true" ∧
    deletePageTarget pageId false = "/pages/" ++ toString pageId ∧
    deletePageTarget pageId true = "/pages/" ++ toString pageId ++ "?force=true" ∧
    deleteCommentTarget commentId false = "/comments/" ++ toString commentId ∧
    deleteCommentTarget commentId true = "/comments/" ++ toString commentId ++ "?force=true" ∧
    deleteMediaTarget mediaId force =
      "/media/" ++ toString mediaId ++ "?force=" ++ (if force then "true" else "false") := by
  refine ⟨rfl, rfl, rfl, rfl, ?_, rfl, ?_, rfl, ?_, rfl, rfl⟩ <;>
    simp [deletePostTarget, deletePageTarget, deleteCommentTarget]

/- ===================== C1 ===================== -/

/-- C1 counterexample.  The claim says the multipart media-upload error path
chooses its message by the same parsed-JSON priority as the JSON request
paths.  On a 400 response whose body is the JSON object with `message` field
"bad request" and `code` field "rest_invalid", the JSON paths surface
"bad request", but `uploadMedia` interpolates the raw body text: it performs
no JSON parse at all. -/
theorem upload_media_raw_body_cex :
    requestErrorText 400 (some { message := some "bad request", code := some "rest_invalid" })
        "\x7b\"message\":\"bad request\",\"code\":\"rest_invalid\"\x7d" =
      "WordPress API error (400): bad request" ∧
    uploadMediaErrorText 400
        "\x7b\"message\":\"bad request\",\"code\":\"rest_invalid\"\x7d" =
      "WordPress API error (400): \x7b\"message\":\"bad request\",\"code\":\"rest_invalid\"\x7d" ∧
    uploadMediaErrorText 400
        "\x7b\"message\":\"bad request\",\"code\":\"rest_invalid\"\x7d" ≠
      "WordPress API error (400): bad request" := by
  refine ⟨rfl, rfl, ?_⟩
  decide

/-- C1 amended.  On a non-2xx status the JSON request paths (`request` and
`requestWithHeaders`) raise a failure whose message follows the priority
parsed-JSON truthy `message` field, then truthy `code` field, then the raw
body text (an unparseable body falls straight to the raw text), with the
numeric status embedded in the failure; the multipart media-upload path
raises with the status and the raw body text directly, with no JSON parsing
step. -/
theorem error_message_priority_amended (status : Nat) (parsed : Option ErrJson) (body : String) :
    uploadMediaErrorText status body =
      "WordPress API error (" ++ toString status ++ "): " ++ body ∧
    (parsed = none →
      requestErrorText status parsed body =
        "WordPress API error (" ++ toString status ++ "): " ++ body) ∧
    (∀ j m, parsed = some j → j.message = some m → m ≠ "" →
      requestErrorText status parsed body =
        "WordPress API error (" ++ toString status ++ "): " ++ m) ∧
    (∀ j c, parsed = some j → jsTruthy j.message = false → j.code = some c → c ≠ "" →
      requestErrorText status parsed body =
        "WordPress API error (" ++ toString status ++ "): " ++ c) ∧
    (∀ j, parsed = some j → jsTruthy j.message = false → jsTruthy j.code = false →
      requestErrorText status parsed body =
        "WordPress API error (" ++ toString status ++ "): " ++ body) := by
  refine ⟨rfl, ?_, ?_, ?_, ?_⟩
  · rintro rfl
    rfl
  · rintro j m rfl hm hm0
    simp [requestErrorText, extractErrorMessage, jsOrDefault, jsTruthy, hm, hm0]
  · rintro j c rfl hm hc hc0
    rw [requestErrorText, extractErrorMessage, jsOrDefault, hm, if_neg (by simp),
      jsOrDefault, hc]
    simp [jsTruthy, hc0]
  · rintro j rfl hm hc
    rw [requestErrorText, extractErrorMessage, jsOrDefault, hm, if_neg (by simp),
      jsOrDefault, hc, if_neg (by simp)]

/-- C1 amended, witnessed at concrete responses covering each priority rung
and the multipart path. -/
theorem error_message_priority_amended_witness :
    requestErrorText 400 (some { message := some "bad request", code := some "rest_invalid" })
        "oops" = "WordPress API error (400): bad request" ∧
    requestErrorText 403 (some { message := none, code := some "rest_forbidden" })
        "oops" = "WordPress API error (403): rest_forbidden" ∧
    requestErrorText 500 (some { message := none, code := none })
        "oops" = "WordPress API error (500): oops" ∧
    requestErrorText 502 none "oops" = "WordPress API error (502): oops" ∧
    uploadMediaErrorText 400 "oops" = "WordPress API error (400): oops" := by
  refine ⟨?_, ?_, ?_, ?_, ?_⟩
  · exact ((error_message_priority_amended 400
      (some { message := some "bad request", code := some "rest_invalid" }) "oops").2.2.1
      _ _ rfl rfl (by decide)).trans (by decide)
  · exact ((error_message_priority_amended 403
      (some { message := none, code := some "rest_forbidden" }) "oops").2.2.2.1
      _ _ rfl (by decide) rfl (by decide)).trans (by decide)
  · exact ((error_message_priority_amended 500
      (some { message := none, code := none }) "oops").2.2.2.2
      _ rfl (by decide) (by decide)).trans (by decide)
  · exact ((error_message_priority_amended 502 none "oops").2.1 rfl).trans (by decide)
  · exact (error_message_priority_amended 400 none "oops").1.trans (by decide)

/- ===================== C2 ===================== -/

/-- C2 counterexample.  The claim says a malformed non-numeric pagination
header such as `x-wp-total: abc` resolves to 0.  On the code,
`parseInt('abc' || '0', 10)` is `parseInt('abc', 10)`, which is `NaN`
(modelled `none`) — the `|| '0'` default only applies to a missing or empty
header. -/
theorem pagination_malformed_header_cex :
    resolveHeaderTotal (some "abc") = none ∧
    resolveHeaderTotal (some "abc") ≠ some 0 := by
  refine ⟨?_, ?_⟩ <;> decide

/-- Digit characters are not skipped as parseInt whitespace. -/
theorem digit_not_jsWhitespace (c : Char) (h : c.isDigit = true) : isJsWhitespace c = false := by
  rw [isJsWhitespace]
  by_contra hw
  simp only [Bool.or_eq_true, decide_eq_true_eq, Bool.not_eq_false] at hw
  rcases hw with ((rfl | rfl) | rfl) | rfl <;> exact absurd h (by decide)

/-- Defaulting helper: a non-empty present header value wins over the
JavaScript `||` default. -/
theorem jsOrDefault_some_ne (s d : String) (h : s ≠ "") : jsOrDefault (some s) d = s := by
  simp [jsOrDefault, jsTruthy, h]

/-- C2 amended.  The pagination-header resolution never throws (it is a
total function); a missing header and an empty header both default to 0; a
header that is entirely decimal digits resolves to its value; but a header
whose text has no leading integer part (after optional whitespace and sign)
resolves to `NaN` — modelled `none` — not to 0. -/
theorem pagination_header_resolution_amended (s : String) :
    resolveHeaderTotal none = some 0 ∧
    resolveHeaderTotal (some "") = some 0 ∧
    (s ≠ "" → noLeadingInt s = true → resolveHeaderTotal (some s) = none) ∧
    (s ≠ "" → (∀ c ∈ s.toList, c.isDigit) →
      resolveHeaderTotal (some s) = some (Int.ofNat (digitsValue s.toList))) := by
  refine ⟨by decide, by decide, ?_, ?_⟩
  · intro hne hform
    rw [resolveHeaderTotal, jsOrDefault_some_ne _ _ hne, parseIntTen]
    rw [noLeadingInt] at hform
    cases hcs : s.toList.dropWhile isJsWhitespace with
    | nil => simp only [hcs]
    | cons c rest =>
      simp only [hcs]
      simp only [hcs] at hform
      by_cases hsign : c = '-' ∨ c = '+'
      · have hsb : (c = '-' || c = '+') = true := by
          rcases hsign with rfl | rfl <;> simp
        rw [if_pos (by simpa using hsb)] at hform
        have hrest : digitsPrefixValue rest = none := by
          cases rest with
          | nil => simp [digitsPrefixValue]
          | cons d tail =>
            simp only [Bool.not_eq_true'] at hform
            simp [digitsPrefixValue, List.takeWhile_cons, hform]
        rcases hsign with rfl | rfl <;> simp [hrest]
      · push_neg at hsign
        rw [if_neg hsign.1, if_neg hsign.2]
        rw [if_neg (by simpa using hsign)] at hform
        simp only [Bool.not_eq_true'] at hform
        simp [digitsPrefixValue, List.takeWhile_cons, hform]
  · intro hne hdig
    rw [resolveHeaderTotal, jsOrDefault_some_ne _ _ hne, parseIntTen]
    have hlist : s.toList ≠ [] := by
      intro h0
      exact hne (by cases s; simpa [String.toList] using congrArg String.mk h0)
    have hdrop : s.toList.dropWhile isJsWhitespace = s.toList := by
      cases hts : s.toList with
      | nil => rfl
      | cons c rest =>
        rw [List.dropWhile_cons,
          digit_not_jsWhitespace c (hdig c (by rw [hts]; exact List.mem_cons_self c rest))]
        simp
    cases hts : s.toList with
    | nil => exact absurd hts hlist
    | cons c rest =>
      have hc : c.isDigit = true := hdig c (by rw [hts]; exact List.mem_cons_self c rest)
      have hcm : c ≠ '-' := by rintro rfl; exact absurd hc (by decide)
      have hcp : c ≠ '+' := by rintro rfl; exact absurd hc (by decide)
      have htake : (c :: rest).takeWhile Char.isDigit = c :: rest := by
        rw [List.takeWhile_eq_self_iff]
        intro x hx
        exact hdig x (by rw [hts]; exact hx)
      rw [hts] at hdrop
      simp only [hdrop, if_neg hcm, if_neg hcp]
      rw [digitsPrefixValue]
      simp only [htake, List.isEmpty_cons]
      simp

/-- C2 amended, witnessed: a numeric header resolves to its value, a
non-numeric one to `NaN`. -/
theorem pagination_header_resolution_amended_witness :
    resolveHeaderTotal (some "42") = some 42 ∧
    resolveHeaderTotal (some "abc") = none := by
  constructor
  · exact ((pagination_header_resolution_amended "42").2.2.2 (by decide) (by decide)).trans
      (by decide)
  · exact (pagination_header_resolution_amended "abc").2.2.1 (by decide) (by decide)

/- ===================== C3 ===================== -/

/-- C3 counterexample.  The claim says the comma separating joined array
elements is preserved as a literal character in the output query string.
For `[a,b,c]` under key `k`, `URLSearchParams` serializes the joined value
through the form-urlencoded escaper, which turns each comma into `%2C`: the
output is `?k=a%2Cb%2Cc`, and no literal comma occurs in it at all. -/
theorem query_array_comma_percent_cex :
    buildQueryString
        [("k", .varr [.sstr "a", .sstr "b", .sstr "c"])] = "?k=a%2Cb%2Cc" ∧
    buildQueryString
        [("k", .varr [.sstr "a", .sstr "b", .sstr "c"])] ≠ "?k=a,b,c" ∧
    ¬ ',' ∈ (buildQueryString
        [("k", .varr [.sstr "a", .sstr "b", .sstr "c"])]).toList := by
  refine ⟨by decide, by decide, by decide⟩

/-- Concatenation distributes over the characterwise encoder. -/
theorem encodeChars_append (l1 l2 : List Char) :
    encodeChars (l1 ++ l2) = encodeChars l1 ++ encodeChars l2 := by
  induction l1 with
  | nil => rfl
  | cons c rest ih =>
    show encodeChar c ++ encodeChars (rest ++ l2) =
      (encodeChar c ++ encodeChars rest) ++ encodeChars l2
    rw [ih, String.append_assoc]

/-- Concatenation distributes over the form-urlencoded component encoder. -/
theorem encodeFormComponent_append (s t : String) :
    encodeFormComponent (s ++ t) = encodeFormComponent s ++ encodeFormComponent t := by
  rw [encodeFormComponent, encodeFormComponent, encodeFormComponent]
  have h : (s ++ t).toList = s.toList ++ t.toList := rfl
  rw [h, encodeChars_append]

/-- Entries surviving a delete of their own key are impossible. -/
theorem filter_searchParamsDelete_self (l : List (String × String)) (k : String) :
    (searchParamsDelete l k).filter (fun p => p.1 = k) = [] := by
  rw [List.filter_eq_nil_iff]
  intro p hp
  have := (List.mem_filter.mp hp).2
  simp only [decide_eq_true_eq] at this ⊢
  simpa using this

/-- Deleting a different key does not change the entries at key `k`. -/
theorem filter_searchParamsDelete_ne (l : List (String × String)) (q k : String)
    (h : q ≠ k) :
    (searchParamsDelete l q).filter (fun p => p.1 = k) = l.filter (fun p => p.1 = k) := by
  rw [searchParamsDelete, List.filter_filter]
  apply List.filter_congr
  intro p _
  by_cases hp : p.1 = k
  · simp [hp, Ne.symm h]
  · simp [hp]

/-- After `URLSearchParams.set(k, v)` the pairs at key `k` are exactly the
single pair `(k, v)`, whatever the accumulator held before. -/
theorem filter_searchParamsSet_self (acc : List (String × String)) (k v : String) :
    (searchParamsSet acc k v).filter (fun p => p.1 = k) = [(k, v)] := by
  induction acc with
  | nil => simp [searchParamsSet]
  | cons p rest ih =>
    rw [searchParamsSet]
    by_cases hp : p.1 = k
    · rw [if_pos hp]
      simp [List.filter_cons, filter_searchParamsDelete_self]
    · rw [if_neg hp]
      simp [List.filter_cons, hp, ih]

/-- `URLSearchParams.set` under a different key does not change the entries
at key `k`. -/
theorem filter_searchParamsSet_ne (acc : List (String × String)) (q k v : String)
    (h : q ≠ k) :
    (searchParamsSet acc q v).filter (fun p => p.1 = k) =
      acc.filter (fun p => p.1 = k) := by
  induction acc with
  | nil => simp [searchParamsSet, h]
  | cons p rest ih =>
    rw [searchParamsSet]
    by_cases hp : p.1 = q
    · rw [if_pos hp]
      simp [List.filter_cons, h, hp, filter_searchParamsDelete_ne rest q k h]
    · rw [if_neg hp]
      by_cases hpk : p.1 = k <;> simp [List.filter_cons, hpk, ih]

/-- One loop step on an entry with a different key does not change the
accumulated pairs at key `k`. -/
theorem filter_searchParamsStep_ne (acc : List (String × String))
    (q : String × ParamValue) (k : String) (h : q.1 ≠ k) :
    (searchParamsStep acc q).filter (fun p => p.1 = k) =
      acc.filter (fun p => p.1 = k) := by
  rw [searchParamsStep]
  cases q.2 with
  | vnull => rfl
  | varr es => exact filter_searchParamsSet_ne acc q.1 k _ h
  | vbool b => exact filter_searchParamsSet_ne acc q.1 k _ h
  | vstr s => exact filter_searchParamsSet_ne acc q.1 k _ h
  | vint n => exact filter_searchParamsSet_ne acc q.1 k _ h

/-- Folding the loop over entries none of which holds key `k` does not
change the accumulated pairs at key `k`. -/
theorem filter_foldl_no_key (rest : List (String × ParamValue)) (k : String) :
    ∀ acc, (∀ q ∈ rest, q.1 ≠ k) →
      (rest.foldl searchParamsStep acc).filter (fun p => p.1 = k) =
        acc.filter (fun p => p.1 = k) := by
  induction rest with
  | nil => intro acc _; rfl
  | cons q rs ih =>
    intro acc hq
    rw [List.foldl_cons, ih _ (fun r hr => hq r (List.mem_cons_of_mem q hr)),
      filter_searchParamsStep_ne acc q k (hq q (List.mem_cons_self q rs))]

/-- Core of the amended C3: for a parameter list with unique keys holding an
array value under key `k`, the accumulated pairs at key `k` after the whole
loop are exactly the single pair carrying the comma-joined elements. -/
theorem filter_buildSearchParams_varr (params : List (String × ParamValue)) (k : String)
    (es : List ParamScalar) :
    ∀ acc, (k, ParamValue.varr es) ∈ params → (params.map Prod.fst).Nodup →
      (params.foldl searchParamsStep acc).filter (fun p => p.1 = k) =
        [(k, String.intercalate "," (es.map scalarToString))] := by
  induction params with
  | nil => intro acc hmem _; simp at hmem
  | cons q rs ih =>
    intro acc hmem hnd
    rw [List.map_cons, List.nodup_cons] at hnd
    rw [List.foldl_cons]
    by_cases hqk : q.1 = k
    · have hq : q = (k, ParamValue.varr es) := by
        rcases List.mem_cons.mp hmem with h | h
        · exact h.symm
        · exact absurd (hqk ▸ List.mem_map.mpr ⟨_, h, rfl⟩) hnd.1
      rw [hq]
      have hstep : searchParamsStep acc (k, ParamValue.varr es) =
          searchParamsSet acc k (String.intercalate "," (es.map scalarToString)) := rfl
      rw [hstep]
      refine (filter_foldl_no_key rs k _ ?_).trans (filter_searchParamsSet_self acc k _)
      intro r hr hrk
      exact hnd.1 (hqk ▸ hrk ▸ List.mem_map.mpr ⟨r, hr, rfl⟩)
    · have hmem2 : (k, ParamValue.varr es) ∈ rs := by
        rcases List.mem_cons.mp hmem with h | h
        · exact absurd (congrArg Prod.fst h.symm) hqk
        · exact h
      exact ih _ hmem2 hnd.2

/-- Length of the intercalation worker never drops below the accumulator. -/
theorem intercalate_go_length_le (as : List String) :
    ∀ acc s : String, acc.length ≤ (String.intercalate.go acc s as).length := by
  induction as with
  | nil => intro acc s; simp [String.intercalate.go]
  | cons a rest ih =>
    intro acc s
    have h1 : String.intercalate.go acc s (a :: rest) =
        String.intercalate.go (acc ++ s ++ a) s rest := rfl
    rw [h1]
    have h2 := ih (acc ++ s ++ a) s
    have h3 : acc.length ≤ (acc ++ s ++ a).length := by
      simp only [String.length_append]
      omega
    omega

/-- Serialization of a non-empty pair list is a non-empty string. -/
theorem serializeSearchParams_cons_ne_empty (p : String × String)
    (l : List (String × String)) : serializeSearchParams (p :: l) ≠ "" := by
  rw [serializeSearchParams, List.map_cons]
  have hcons : String.intercalate "&"
      ((encodeFormComponent p.1 ++ "=" ++ encodeFormComponent p.2) ::
        l.map (fun q => encodeFormComponent q.1 ++ "=" ++ encodeFormComponent q.2)) =
      String.intercalate.go (encodeFormComponent p.1 ++ "=" ++ encodeFormComponent p.2) "&"
        (l.map (fun q => encodeFormComponent q.1 ++ "=" ++ encodeFormComponent q.2)) := rfl
  rw [hcons]
  intro h
  have hge := intercalate_go_length_le
    (l.map (fun q => encodeFormComponent q.1 ++ "=" ++ encodeFormComponent q.2))
    (encodeFormComponent p.1 ++ "=" ++ encodeFormComponent p.2) "&"
  rw [h] at hge
  simp only [String.length_append] at hge
  have h1 : String.length "=" = 1 := rfl
  have h0 : String.length "" = 0 := rfl
  omega

/-- C3 amended.  For every parameter mapping (unique keys, as JavaScript
object literals guarantee) containing an array value under key `k`, the
pair list handed to the serializer holds exactly one pair at key `k`, whose
value is the elements joined by commas in their original order with no
deduplication; the output string is the `?`-prefixed serialization of those
pairs, and the serializer percent-escapes the whole value — each separator
comma appears as `%2C` in the output, not as a literal comma. -/
theorem query_array_join_encoding_amended (params : List (String × ParamValue))
    (k : String) (es : List ParamScalar)
    (hmem : (k, ParamValue.varr es) ∈ params)
    (hnodup : (params.map Prod.fst).Nodup) :
    (buildSearchParams params).filter (fun p => p.1 = k) =
      [(k, String.intercalate "," (es.map scalarToString))] ∧
    buildQueryString params = "?" ++ serializeSearchParams (buildSearchParams params) ∧
    (∀ s t : String, encodeFormComponent (s ++ "," ++ t) =
      encodeFormComponent s ++ "%2C" ++ encodeFormComponent t) := by
  have hfilter := filter_buildSearchParams_varr params k es [] hmem hnodup
  refine ⟨hfilter, ?_, ?_⟩
  · have hne : buildSearchParams params ≠ [] := by
      intro h0
      have h0f : params.foldl searchParamsStep [] = [] := h0
      rw [h0f] at hfilter
      simp at hfilter
    rw [buildQueryString]
    cases hsp : buildSearchParams params with
    | nil => exact absurd hsp hne
    | cons p l =>
      rw [if_neg (serializeSearchParams_cons_ne_empty p l)]
  · intro s t
    rw [encodeFormComponent_append, encodeFormComponent_append]
    have hc : encodeFormComponent "," = "%2C" := rfl
    rw [hc]

/-- C3 amended, witnessed at a realistic listPosts-shaped mapping: the
default `per_page` and the `order` scalar accompany a `categories` array,
which still serializes as a single pair whose comma appears as `%2C`. -/
theorem query_array_join_encoding_amended_witness :
    (buildSearchParams [("per_page", ParamValue.vint 20),
        ("categories", ParamValue.varr [ParamScalar.sint 1, ParamScalar.sint 2]),
        ("order", ParamValue.vstr "desc")]).filter (fun p => p.1 = "categories") =
      [("categories", "1,2")] ∧
    buildQueryString [("per_page", ParamValue.vint 20),
        ("categories", ParamValue.varr [ParamScalar.sint 1, ParamScalar.sint 2]),
        ("order", ParamValue.vstr "desc")] = "?per_page=20&categories=1%2C2&order=desc" := by
  have h := query_array_join_encoding_amended
    [("per_page", ParamValue.vint 20),
     ("categories", ParamValue.varr [ParamScalar.sint 1, ParamScalar.sint 2]),
     ("order", ParamValue.vstr "desc")]
    "categories" [ParamScalar.sint 1, ParamScalar.sint 2] (by decide) (by decide)
  exact ⟨h.1.trans (by decide), h.2.1.trans (by decide)⟩

/- ===================== C10 ===================== -/

/-- Spreading params over a single-key default leaves the default in front
when the params do not mention the key. -/
theorem spreadInto_per_page_none (v : ParamValue) (params : List (String × ParamValue))
    (h : params.find? (fun q => q.1 = "per_page") = none) :
    spreadInto [("per_page", v)] params = ("per_page", v) :: params := by
  rw [spreadInto]
  simp only [List.map_cons, List.map_nil, h]
  have hall := List.find?_eq_none.mp h
  have hfilter : params.filter
      (fun q => !([(("per_page" : String), v)].any (fun p => p.1 = q.1))) = params := by
    rw [List.filter_eq_self]
    intro q hq
    have := hall q hq
    simp only [decide_eq_true_eq] at this
    simp [Ne.symm this]
  rw [hfilter]
  rfl

/-- Spreading params over a single-key default replaces the default value in
place when the params mention the key, and drops the later occurrence. -/
theorem spreadInto_per_page_some (v : ParamValue) (params : List (String × ParamValue))
    (q : String × ParamValue) (h : params.find? (fun r => r.1 = "per_page") = some q) :
    spreadInto [("per_page", v)] params =
      ("per_page", q.2) :: params.filter (fun p => p.1 ≠ "per_page") := by
  rw [spreadInto]
  simp only [List.map_cons, List.map_nil, h]
  have hfilter : params.filter
      (fun r => !([(("per_page" : String), v)].any (fun p => p.1 = r.1))) =
      params.filter (fun p => p.1 ≠ "per_page") := by
    apply List.filter_congr
    intro p _
    simp [eq_comm]
  rw [hfilter]
  rfl

/-- C10 confirmed.  Every list operation injects its default `per_page` into
the parameter object before encoding — 20 for posts, pages, comments and
media, 100 for categories and tags — a caller-supplied `per_page` overrides
the default in place, and the users list is requested with no query string
at all. -/
theorem list_per_page_defaults (params : List (String × ParamValue)) :
    (params.find? (fun q => q.1 = "per_page") = none →
      listPostsQuery params = buildQueryString (("per_page", .vint 20) :: params) ∧
      listPagesQuery params = buildQueryString (("per_page", .vint 20) :: params) ∧
      listCommentsQuery params = buildQueryString (("per_page", .vint 20) :: params) ∧
      listMediaQuery params = buildQueryString (("per_page", .vint 20) :: params) ∧
      listCategoriesQuery params = buildQueryString (("per_page", .vint 100) :: params) ∧
      listTagsQuery params = buildQueryString (("per_page", .vint 100) :: params)) ∧
    (∀ q, params.find? (fun r => r.1 = "per_page") = some q →
      listPostsQuery params =
        buildQueryString (("per_page", q.2) :: params.filter (fun p => p.1 ≠ "per_page")) ∧
      listPagesQuery params =
        buildQueryString (("per_page", q.2) :: params.filter (fun p => p.1 ≠ "per_page")) ∧
      listCommentsQuery params =
        buildQueryString (("per_page", q.2) :: params.filter (fun p => p.1 ≠ "per_page")) ∧
      listMediaQuery params =
        buildQueryString (("per_page", q.2) :: params.filter (fun p => p.1 ≠ "per_page")) ∧
      listCategoriesQuery params =
        buildQueryString (("per_page", q.2) :: params.filter (fun p => p.1 ≠ "per_page")) ∧
      listTagsQuery params =
        buildQueryString (("per_page", q.2) :: params.filter (fun p => p.1 ≠ "per_page"))) ∧
    listUsersTarget = "/users" := by
  refine ⟨fun h => ?_, fun q h => ?_, rfl⟩
  · rw [listPostsQuery, listPagesQuery, listCommentsQuery, listMediaQuery,
      listCategoriesQuery, listTagsQuery,
      spreadInto_per_page_none _ _ h, spreadInto_per_page_none _ _ h]
    exact ⟨rfl, rfl, rfl, rfl, rfl, rfl⟩
  · rw [listPostsQuery, listPagesQuery, listCommentsQuery, listMediaQuery,
      listCategoriesQuery, listTagsQuery,
      spreadInto_per_page_some _ _ _ h, spreadInto_per_page_some _ _ _ h]
    exact ⟨rfl, rfl, rfl, rfl, rfl, rfl⟩

/-- C10 witnessed: without a caller `per_page` the default 20 (posts) and
100 (categories) are encoded; a caller-supplied `per_page: 5` overrides the
default. -/
theorem list_per_page_defaults_witness :
    listPostsQuery [("order", ParamValue.vstr "desc")] = "?per_page=20&order=desc" ∧
    listCategoriesQuery [("order", ParamValue.vstr "asc")] = "?per_page=100&order=asc" ∧
    listPostsQuery [("per_page", ParamValue.vint 5)] = "?per_page=5" := by
  refine ⟨?_, ?_, ?_⟩
  · exact (((list_per_page_defaults [("order", .vstr "desc")]).1 (by decide)).1).trans (by decide)
  · exact (((list_per_page_defaults [("order", .vstr "asc")]).1
      (by decide)).2.2.2.2.1).trans (by decide)
  · exact (((list_per_page_defaults [("per_page", .vint 5)]).2.1 ("per_page", .vint 5)
      (by decide)).1).trans (by decide)

end WPMCP
